import Mathlib

/-!
Verification development for the Orris knowledge-base retrieval service.

Frontend definitions are embedded from the TypeScript under `src/frontend`
(chat page `handleSendMessage` and the RAG API client). The backend
ingestion / retrieval pipeline is present in the repository only through
its documentation, so those components are modelled from the spec
(each such definition says so in its doc comment).
-/

namespace Orris

/-! ## Frontend: chat error fallback (src/frontend/app/chat/page.tsx) -/

/-- Does `pat` occur as a contiguous run inside the character list? -/
def listHasInfix (pat : List Char) : List Char → Bool
  | [] => pat.isEmpty
  | c :: cs => pat.isPrefixOf (c :: cs) || listHasInfix pat cs

/-- Substring test used to embed JavaScript `String.prototype.includes`. -/
def strContains (hay pat : String) : Bool :=
  listHasInfix pat.toList hay.toList

/-- Character-wise lowercasing, embedding JavaScript `toLowerCase` on
the ASCII text the chat handler deals in. -/
def strToLower (s : String) : String := ⟨s.data.map Char.toLower⟩

/-- Embeds the `isPrivacyRestricted` test of `handleSendMessage`
(`page.tsx` lines 255-257): the lowercased query contains
"salary", "personal" or "phone". -/
def isPrivacyRestricted (q : String) : Bool :=
  strContains (strToLower q) "salary" || strContains (strToLower q) "personal" ||
    strContains (strToLower q) "phone"

/-- Default error message of `handleSendMessage` (`page.tsx` line 234). -/
def genericErrorMessage : String :=
  "I apologize, but I encountered an error while processing your request. Please try again later or contact support if the issue persists."

/-- Message set on HTTP 403 (`page.tsx` line 244). -/
def permissionErrorMessage : String :=
  "You don\x27t have permission to access this information. Please contact your administrator for access."

/-- Message set when the privacy-keyword test matches (`page.tsx` line 260). -/
def privacyErrorMessage : String :=
  "I cannot access personal or sensitive information like salaries, personal contact details, or confidential employee data. This information is protected by our privacy policies. Is there something else I can help you with?"

/-- The user-visible AI error bubble appended by the catch branch of
`handleSendMessage`: its text and its `isProtected` flag. -/
structure ErrorBubble where
  content : String
  isProtected : Bool
deriving DecidableEq, Repr

/-- Embeds the catch branch of `handleSendMessage` (`page.tsx` lines
230-272). `status` is `some n` when the thrown error carries an HTTP
status (the thrown error carries a status field), `none` otherwise. On 401 the handler
returns early and appends no bubble (`none`); on 403 the permission
message replaces the generic one; afterwards the privacy-keyword test
on the query may override the message and set `isProtected`. -/
def fallbackBubble (status : Option Nat) (q : String) : Option ErrorBubble :=
  if status = some 401 then
    none
  else
    let base := if status = some 403 then permissionErrorMessage else genericErrorMessage
    if isPrivacyRestricted q then
      some ⟨privacyErrorMessage, true⟩
    else
      some ⟨base, false⟩

/-! ## Frontend: RAG query request (src/frontend/app/chat/page.tsx, lib/api/rag.ts) -/

/-- Embeds `QueryRequestBody` of `src/frontend/lib/api/rag.ts`. -/
structure QueryRequestBody where
  query : String
  session_id : Option String
  top_k_pre : Option Nat
  top_k_post : Option Nat
  use_finllama : Option Bool
deriving DecidableEq, Repr

/-- Embeds the single `ragApi.query` call site of the chat interface
(`page.tsx` lines 197-203): the body always carries `top_k_pre: 30` and
`top_k_post: 7`. -/
def chatQueryRequest (userQuery : String) (sessionId : Option String)
    (useFin : Bool) : QueryRequestBody :=
  { query := userQuery
    session_id := sessionId
    top_k_pre := some 30
    top_k_post := some 7
    use_finllama := some useFin }

/-! ## Access control and retrieval (modelled from the spec) -/

/-- Sensitivity label of a chunk (spec §3). -/
inductive Sensitivity
  | general
  | restricted
deriving DecidableEq, Repr

/-- The atomic indexed unit (spec §3 Chunk), restricted to the fields the
retrieval pipeline and the access-control filter consult. -/
structure Chunk where
  chunkId : String
  docId : Nat
  position : Nat
  text : String
  sensitivity : Sensitivity
  owner : Option Nat
  locator : String
deriving DecidableEq, Repr

/-- The requesting identity as supplied by the external auth collaborator
(spec §3 Access Level, §6): an owner id plus an administrative-capability
flag. -/
structure Identity where
  owner_id : Nat
  admin : Bool
deriving DecidableEq, Repr

/-- Modelled from the spec: the Access Control Filter of §4.8, whose
backend implementation is not under `src/`. `allow(chunk, identity)` is
true if `chunk.sensitivity == general`; true if restricted and
(`identity.owner_id == chunk.owner` or the identity has the
administrative capability); false otherwise. -/
def allow (c : Chunk) (i : Identity) : Bool :=
  match c.sensitivity with
  | .general => true
  | .restricted => (c.owner == some i.owner_id) || i.admin

/-- Ranking order of §4.7 step 4: higher score first, ties broken by
earlier document position. -/
def rankLe (score : Chunk → Nat) (a b : Chunk) : Bool :=
  score b < score a || (score a == score b && a.position ≤ b.position)

/-- Insert a chunk into an already ranked list, keeping the order. -/
def insertRanked (score : Chunk → Nat) (x : Chunk) : List Chunk → List Chunk
  | [] => [x]
  | y :: ys => if rankLe score x y then x :: y :: ys else y :: insertRanked score x ys

/-- Sort candidates by the ranking order (insertion sort). -/
def rankSort (score : Chunk → Nat) (l : List Chunk) : List Chunk :=
  l.foldr (insertRanked score) []

/-- Modelled from the spec: Vector Index `search` (§4.5) — rank the
stored chunks by score and return the `top_k` best. -/
def searchTopK (index : List Chunk) (score : Chunk → Nat) (k : Nat) : List Chunk :=
  (rankSort score index).take k

/-- Possible answers of the retrieval pipeline (spec §4.7, §7). -/
inductive Answer
  | generated (text : String)
  | noAccessibleContext
  | fallback
deriving DecidableEq, Repr

/-- What one run of the retrieval pipeline produces: the answer, the
cited source locators, the kept chunks, and whether the generation
model was invoked. -/
structure PipelineOutcome where
  answer : Answer
  citedSources : List String
  keptChunks : List Chunk
  invokedGeneration : Bool
deriving Repr

/-- Modelled from the spec: `retrieve_and_answer` of §4.7, whose backend
implementation is not under `src/`. `score` stands for the similarity of
each indexed chunk to the already embedded query; `generate` is the
external generation model (`none` = provider failure). Steps: search
`topKPre` candidates, filter each through `allow`, answer
`noAccessibleContext` when nothing survives, otherwise keep the best
`topKPost`, invoke generation, and cite the locators of the kept chunks. -/
def retrieveAndAnswer (index : List Chunk) (score : Chunk → Nat)
    (topKPre topKPost : Nat) (generate : List Chunk → String → Option String)
    (q : String) (ident : Identity) : PipelineOutcome :=
  let candidates := searchTopK index score topKPre
  let allowed := candidates.filter (fun c => allow c ident)
  if allowed.isEmpty then
    { answer := .noAccessibleContext
      citedSources := []
      keptChunks := []
      invokedGeneration := false }
  else
    let kept := allowed.take topKPost
    match generate kept q with
    | some text =>
        { answer := .generated text
          citedSources := kept.map (fun c => c.locator)
          keptChunks := kept
          invokedGeneration := true }
    | none =>
        { answer := .fallback
          citedSources := []
          keptChunks := kept
          invokedGeneration := true }

/-! ## Document Sync Engine (modelled from the spec and WEBHOOK_SETUP.md) -/

/-- Sync status of a Document Sync Record (spec §3, §4.6). -/
inductive SyncStatus
  | pending
  | processing
  | synced
  | failed
  | deleted
deriving DecidableEq, Repr

/-- Modelled from the spec: the Document Sync Record of §3 (the
`document_sync` table of WEBHOOK_SETUP.md), restricted to the fields the
claims consult. The checksum is modelled as the content version it
certifies. -/
structure SyncRecord where
  docId : Nat
  status : SyncStatus
  checksum : Option String
  errorMsg : Option String
  retryCount : Nat
deriving DecidableEq, Repr

/-- A Vector Index entry key: (owning document id, position/content key).
Spec §4.6 keys all index writes by deterministic chunk ids. -/
abbrev ChunkId := Nat × Nat

/-- The shared mutable state of the ingestion side: the Sync Ledger and
the set of chunk ids present in the Vector Index. -/
structure SyncState where
  ledger : List SyncRecord
  index : List ChunkId
deriving DecidableEq, Repr

/-- The empty initial state: no records, no indexed chunks. -/
def initState : SyncState := ⟨[], []⟩

/-- Look up the sync record of one source document. -/
def lookupRecord (st : SyncState) (d : Nat) : Option SyncRecord :=
  st.ledger.find? (fun r => r.docId == d)

/-- Write a record, replacing any record of the same document. -/
def setRecord (st : SyncState) (r : SyncRecord) : SyncState :=
  { st with ledger := r :: st.ledger.filter (fun x => x.docId != r.docId) }

/-- Modelled from the spec: `delete_by_document` of §4.5 — remove every
indexed chunk of one document; a no-op when none are present. -/
def deleteByDocument (idx : List ChunkId) (d : Nat) : List ChunkId :=
  idx.filter (fun e => e.1 != d)

/-- Modelled from the spec: a keyed Vector Index write (§4.6) — writing
an already present chunk id changes nothing. -/
def upsertChunk (idx : List ChunkId) (e : ChunkId) : List ChunkId :=
  if e ∈ idx then idx else idx ++ [e]

/-- Upsert a whole chunk set, one keyed write per chunk. -/
def upsertAll (idx : List ChunkId) (es : List ChunkId) : List ChunkId :=
  es.foldl upsertChunk idx

/-- The chunk ids currently present in the Vector Index for a document. -/
def chunkIdsOf (idx : List ChunkId) (d : Nat) : List ChunkId :=
  idx.filter (fun e => e.1 == d)

/-- Change types of an intake notification (spec §6). -/
inductive ChangeType
  | created
  | updated
  | deleted
  | trashed
deriving DecidableEq, Repr

/-- Outcome of running Extractor→Chunker→Classifier→Embedder for one
document: the fetched content on success, or an unrecoverable error. -/
inductive SyncOutcome
  | success (content : String)
  | failure (errMsg : String)
deriving DecidableEq, Repr

/-- The observable events of the Sync Engine: a change notification
arriving, a background run starting, and a run finishing. -/
inductive SyncEvent
  | notify (d : Nat) (c : ChangeType)
  | startSync (d : Nat)
  | finishSync (d : Nat) (o : SyncOutcome)
deriving DecidableEq, Repr

/-- The record an existing (or absent) sync record turns into on a
delete/trash notification: status `deleted`, record retained. -/
def markDeleted (o : Option SyncRecord) (d : Nat) : SyncRecord :=
  match o with
  | some r => { r with status := .deleted }
  | none => ⟨d, .deleted, none, none, 0⟩

/-- Modelled from the spec: the Sync Engine state machine of §4.6 and the
sync workflow of WEBHOOK_SETUP.md (its backend implementation is not
under `src/`). `chunker` maps a document id and its current content to
the deterministic chunk ids the Chunker produces.
`notify created/updated` coalesces to a no-op when the record is already
`processing`, else marks the record `pending`; `notify deleted/trashed`
removes the chunks of the document and marks the record `deleted` (retained
as an audit trail). `startSync` takes `pending → processing`.
`finishSync` on a `processing` record either deletes-then-reinserts the
new chunk set and marks `synced` with the new checksum, or on failure
records the error, bumps the retry count, and leaves the index alone. -/
def applyEvent (chunker : Nat → String → List ChunkId) (st : SyncState) :
    SyncEvent → SyncState
  | .notify d c =>
    if c = .deleted ∨ c = .trashed then
      { ledger := (setRecord st (markDeleted (lookupRecord st d) d)).ledger
        index := deleteByDocument st.index d }
    else
      match lookupRecord st d with
      | some r =>
          if r.status = .processing then st
          else setRecord st { r with status := .pending }
      | none => setRecord st ⟨d, .pending, none, none, 0⟩
  | .startSync d =>
    match lookupRecord st d with
    | some r => if r.status = .pending then setRecord st { r with status := .processing } else st
    | none => st
  | .finishSync d o =>
    match lookupRecord st d with
    | some r =>
        if r.status = .processing then
          match o with
          | .success content =>
              { ledger := (setRecord st
                  { r with status := .synced, checksum := some content,
                           errorMsg := none }).ledger
                index := upsertAll (deleteByDocument st.index d) (chunker d content) }
          | .failure msg =>
              setRecord st
                { r with status := .failed, errorMsg := some msg,
                         retryCount := r.retryCount + 1 }
        else st
    | none => st

/-- Run the Sync Engine from the initial state over a list of events. -/
def runEvents (chunker : Nat → String → List ChunkId) (evs : List SyncEvent) : SyncState :=
  evs.foldl (applyEvent chunker) initState

/-- Full delivery of one create/update notification: the notification
arrives, the background run starts, the run finishes with `o`. -/
def deliverUpdate (chunker : Nat → String → List ChunkId) (st : SyncState)
    (d : Nat) (o : SyncOutcome) : SyncState :=
  applyEvent chunker
    (applyEvent chunker (applyEvent chunker st (.notify d .updated)) (.startSync d))
    (.finishSync d o)

/-- The ledger holds at most one record per source document when its
document-id keys are pairwise distinct. -/
def keysNodup (l : List SyncRecord) : Prop :=
  (l.map (fun r => r.docId)).Nodup

/-- The cross-store consistency invariant: the checksum of every
`synced` record holds a content version whose chunker output is exactly the
chunk set currently present in the Vector Index for that document. -/
def syncedConsistent (chunker : Nat → String → List ChunkId) (st : SyncState) : Prop :=
  ∀ r ∈ st.ledger, r.status = .synced →
    ∃ c, r.checksum = some c ∧ chunkIdsOf st.index r.docId = chunker r.docId c

/-- The retry count currently recorded for a document (0 when absent). -/
def retryOf (st : SyncState) (d : Nat) : Nat :=
  match lookupRecord st d with
  | some r => r.retryCount
  | none => 0

/-! ## Classifier (modelled from the spec §4.3) -/

/-- Modelled from the spec: the Classifier of §4.3, whose backend
implementation is not under `src/`. `scan` is the pluggable
content-based detector (§9). Structural placement is the authoritative
default: a restricted-folder document yields `restricted` chunks with
the folder owner. In a general folder, a chunk whose text matches the
scan is escalated to `restricted` with no specific owner; otherwise it
stays `general`. -/
def classifyChunk (scan : String → Bool) (restrictedFolder : Bool)
    (folderOwner : Option Nat) (text : String) : Sensitivity × Option Nat :=
  if restrictedFolder then (.restricted, folderOwner)
  else if scan text then (.restricted, none)
  else (.general, none)

/-- Classify every chunk text of one document independently. -/
def classifyDocument (scan : String → Bool) (restrictedFolder : Bool)
    (folderOwner : Option Nat) (texts : List String) : List (Sensitivity × Option Nat) :=
  texts.map (classifyChunk scan restrictedFolder folderOwner)

/-! ## Helper lemmas -/

theorem mem_insertRanked {score : Chunk → Nat} {x a : Chunk} {l : List Chunk} :
    x ∈ insertRanked score a l ↔ x = a ∨ x ∈ l := by
  induction l with
  | nil => simp [insertRanked]
  | cons y ys ih =>
    unfold insertRanked
    by_cases h : rankLe score a y = true
    · simp [h]
    · simp only [h]
      simp [List.mem_cons, ih]
      tauto

theorem mem_rankSort {score : Chunk → Nat} {x : Chunk} {l : List Chunk} :
    x ∈ rankSort score l ↔ x ∈ l := by
  induction l with
  | nil => simp [rankSort]
  | cons y ys ih =>
    unfold rankSort at *
    simp only [List.foldr_cons]
    rw [mem_insertRanked]
    simp [ih]

theorem mem_searchTopK {index : List Chunk} {score : Chunk → Nat} {k : Nat}
    {x : Chunk} (h : x ∈ searchTopK index score k) : x ∈ index := by
  unfold searchTopK at h
  exact mem_rankSort.mp (List.take_subset _ _ h)

/-! ## Claims -/

/-- C10: every RAG query the chat interface sends carries
`top_k_pre = 30` and `top_k_post = 7`, so the pre-filter candidate pool
is strictly larger than the post-filter budget for every user query
issued through the UI. -/
theorem C10_fixed_topk (q : String) (sid : Option String) (fin : Bool) :
    (chatQueryRequest q sid fin).top_k_pre = some 30 ∧
    (chatQueryRequest q sid fin).top_k_post = some 7 ∧
    (chatQueryRequest q sid fin).top_k_post.getD 0 <
      (chatQueryRequest q sid fin).top_k_pre.getD 0 := by
  refine ⟨rfl, rfl, ?_⟩
  simp [chatQueryRequest]

/-- C2: the access-control filter is a pure function of
(chunk, identity): `allow` returns true exactly when the chunk is
`general`, or the chunk is `restricted` and the identity owns it or has
the administrative capability; false in every other case. -/
theorem C2_allow_semantics (c : Chunk) (i : Identity) :
    allow c i = true ↔
      c.sensitivity = .general ∨
      (c.sensitivity = .restricted ∧ (c.owner = some i.owner_id ∨ i.admin = true)) := by
  cases h : c.sensitivity <;> simp [allow, h]

/-- C9 counterexample: a failed query whose status is 403 (neither 401
nor 404) and whose text has no privacy keyword shows the
permission-denied message, not the generic error message, so the
fallback is not determined solely by the query text. -/
theorem C9_counterexample :
    (some 403 : Option Nat) ≠ some 401 ∧ (some 403 : Option Nat) ≠ some 404 ∧
    isPrivacyRestricted "hello" = false ∧
    fallbackBubble (some 403) "hello" = some ⟨permissionErrorMessage, false⟩ ∧
    fallbackBubble (some 403) "hello" ≠ some ⟨genericErrorMessage, false⟩ := by
  refine ⟨by decide, by decide, by decide, by decide, by decide⟩

/-- C9 amended: when a /rag/query request fails with an error whose
status is neither 401, 403 nor 404, the fallback bubble is determined
solely by the query text: a privacy-keyword query shows the privacy
message with `isProtected = true`, any other query the generic message
with `isProtected = false`. -/
theorem C9_fallback_by_query (status : Option Nat) (q : String)
    (h1 : status ≠ some 401) (h3 : status ≠ some 403) (_h4 : status ≠ some 404) :
    fallbackBubble status q =
      some (if isPrivacyRestricted q then ⟨privacyErrorMessage, true⟩
            else ⟨genericErrorMessage, false⟩) := by
  unfold fallbackBubble
  rw [if_neg h1]
  simp only [h3, if_false]
  cases hq : isPrivacyRestricted q <;> simp [hq]

set_option maxRecDepth 8192 in
/-- C9 witness: at status 500 and a salary query, the amended theorem
yields the privacy bubble. -/
theorem C9_fallback_by_query_witness :
    fallbackBubble (some 500) "What is the salary of the CEO" =
      some ⟨privacyErrorMessage, true⟩ := by
  rw [C9_fallback_by_query (some 500) "What is the salary of the CEO"
    (by decide) (by decide) (by decide)]
  decide

/-- C8: classifier escalation is per-chunk and one-directional: a chunk
from a restricted folder is always `restricted` whatever the scan says
(structural placement is the floor), and a general-folder document of
ten paragraphs exactly one of which matches the scan yields exactly one
`restricted` chunk. -/
theorem C8_classifier_per_chunk (scan : String → Bool) :
    (∀ fo t, (classifyChunk scan true fo t).1 = .restricted) ∧
    (∀ fo texts, texts.length = 10 → texts.countP scan = 1 →
      (classifyDocument scan false fo texts).countP
        (fun p => decide (p.1 = Sensitivity.restricted)) = 1) := by
  constructor
  · intro fo t
    simp [classifyChunk]
  · intro fo texts _ hone
    unfold classifyDocument
    rw [List.countP_map]
    rw [← hone]
    apply List.countP_congr
    intro t _
    by_cases h : scan t = true <;> simp [Function.comp, classifyChunk, h]

/-- C8 witness: ten concrete paragraphs, one containing "salary", under
a general folder: exactly one chunk comes out `restricted`, and a
restricted-folder chunk stays `restricted`. -/
theorem C8_classifier_per_chunk_witness :
    (classifyChunk (fun t => strContains t "salary") true (some 42) "hello").1 =
      Sensitivity.restricted ∧
    (classifyDocument (fun t => strContains t "salary") false none
        ["p0", "p1", "p2", "p3", "the salary table", "p5", "p6", "p7", "p8", "p9"]).countP
      (fun p => decide (p.1 = Sensitivity.restricted)) = 1 :=
  ⟨(C8_classifier_per_chunk (fun t => strContains t "salary")).1 (some 42) "hello",
   (C8_classifier_per_chunk (fun t => strContains t "salary")).2 none
     ["p0", "p1", "p2", "p3", "the salary table", "p5", "p6", "p7", "p8", "p9"]
     (by decide) (by decide)⟩

/-- C3: when the access-control filter drops every post-search
candidate, the pipeline answers `noAccessibleContext` and never invokes
the generation model. -/
theorem C3_no_accessible_context (index : List Chunk) (score : Chunk → Nat)
    (kPre kPost : Nat) (generate : List Chunk → String → Option String)
    (q : String) (ident : Identity)
    (h : (searchTopK index score kPre).filter (fun c => allow c ident) = []) :
    (retrieveAndAnswer index score kPre kPost generate q ident).answer =
      Answer.noAccessibleContext ∧
    (retrieveAndAnswer index score kPre kPost generate q ident).invokedGeneration = false := by
  unfold retrieveAndAnswer
  simp [h]

/-- C3 witness: one restricted chunk owned by user 5 queried by user 7
without the administrative capability: the filter drops everything and
the theorem applies. -/
theorem C3_no_accessible_context_witness :
    (retrieveAndAnswer [⟨"c1", 1, 0, "pay data", .restricted, some 5, "salary.xlsx#p1"⟩]
        (fun _ => 10) 30 7 (fun _ _ => some "generated") "salary info" ⟨7, false⟩).answer =
      Answer.noAccessibleContext ∧
    (retrieveAndAnswer [⟨"c1", 1, 0, "pay data", .restricted, some 5, "salary.xlsx#p1"⟩]
        (fun _ => 10) 30 7 (fun _ _ => some "generated") "salary info" ⟨7, false⟩).invokedGeneration =
      false :=
  C3_no_accessible_context [⟨"c1", 1, 0, "pay data", .restricted, some 5, "salary.xlsx#p1"⟩]
    (fun _ => 10) 30 7 (fun _ _ => some "generated") "salary info" ⟨7, false⟩ (by decide)

/-- C1: every source locator cited by the retrieval pipeline belongs to
an indexed chunk that the access-control filter allows for the
requesting identity — a source dropped by the filter is never cited. -/
theorem C1_cited_sources_allowed (index : List Chunk) (score : Chunk → Nat)
    (kPre kPost : Nat) (generate : List Chunk → String → Option String)
    (q : String) (ident : Identity) (loc : String)
    (hmem : loc ∈ (retrieveAndAnswer index score kPre kPost generate q ident).citedSources) :
    ∃ c : Chunk, c ∈ index ∧ allow c ident = true ∧ c.locator = loc := by
  simp only [retrieveAndAnswer] at hmem
  by_cases hempty :
      ((searchTopK index score kPre).filter (fun c => allow c ident)).isEmpty = true
  · simp [hempty] at hmem
  · cases hgen : generate (((searchTopK index score kPre).filter
        (fun c => allow c ident)).take kPost) q with
    | none => simp [hempty, hgen] at hmem
    | some t =>
      simp [hempty, hgen] at hmem
      have h2 := List.take_subset _ _ hmem
      rw [List.mem_map] at h2
      obtain ⟨c, hc, hcl⟩ := h2
      rw [List.mem_filter] at hc
      exact ⟨c, mem_searchTopK hc.1, hc.2, hcl⟩

/-- C1 witness: a single general chunk is retrieved and its locator
cited; the theorem produces the allowed chunk behind the citation. -/
theorem C1_cited_sources_allowed_witness :
    ∃ c : Chunk, c ∈ [⟨"c1", 1, 0, "policy text", .general, none, "policy.pdf#p1"⟩] ∧
      allow c ⟨7, false⟩ = true ∧ c.locator = "policy.pdf#p1" :=
  C1_cited_sources_allowed [⟨"c1", 1, 0, "policy text", .general, none, "policy.pdf#p1"⟩]
    (fun _ => 10) 30 7 (fun _ _ => some "generated") "remote work policy" ⟨7, false⟩
    "policy.pdf#p1" (by decide)

/-! ## Sync Engine lemmas -/

theorem find?_filter_of_imp {α : Type} (p q : α → Bool) (l : List α)
    (h : ∀ x, p x = true → q x = true) : (l.filter q).find? p = l.find? p := by
  induction l with
  | nil => rfl
  | cons a l ih =>
    by_cases hq : q a = true
    · by_cases hp : p a = true
      · simp [List.filter_cons, hq, hp, List.find?_cons_of_pos]
      · rw [List.filter_cons, if_pos hq, List.find?_cons_of_neg _ (by simp [hp]),
          List.find?_cons_of_neg _ (by simp [hp]), ih]
    · have hp : ¬p a = true := fun hpa => hq (h a hpa)
      rw [List.filter_cons, if_neg hq, List.find?_cons_of_neg _ (by simp [hp])]
      exact ih

theorem lookupRecord_docId {st : SyncState} {d : Nat} {r : SyncRecord}
    (h : lookupRecord st d = some r) : r.docId = d := by
  unfold lookupRecord at h
  have := List.find?_some h
  simpa using this

theorem lookupRecord_setRecord_self (st : SyncState) (r : SyncRecord) :
    lookupRecord (setRecord st r) r.docId = some r := by
  unfold lookupRecord setRecord
  simp [List.find?_cons_of_pos]

theorem lookupRecord_setRecord_other (st : SyncState) (r : SyncRecord) (d : Nat)
    (h : r.docId ≠ d) : lookupRecord (setRecord st r) d = lookupRecord st d := by
  unfold lookupRecord setRecord
  dsimp only
  rw [List.find?_cons_of_neg _ (by simp [h])]
  apply find?_filter_of_imp
  intro x hx
  have hx' : x.docId = d := by simpa using hx
  simp [hx']
  exact fun e => h e.symm

theorem mem_setRecord_ledger {st : SyncState} {r' x : SyncRecord}
    (hx : x ∈ (setRecord st r').ledger) :
    x = r' ∨ (x ∈ st.ledger ∧ x.docId ≠ r'.docId) := by
  unfold setRecord at hx
  rw [List.mem_cons] at hx
  rcases hx with h | h
  · exact Or.inl h
  · rw [List.mem_filter] at h
    refine Or.inr ⟨h.1, ?_⟩
    simpa using h.2

theorem keysNodup_setRecord (st : SyncState) (r : SyncRecord)
    (h : keysNodup st.ledger) : keysNodup (setRecord st r).ledger := by
  unfold keysNodup setRecord at *
  rw [List.map_cons, List.nodup_cons]
  constructor
  · intro hmem
    rw [List.mem_map] at hmem
    obtain ⟨x, hx, hxd⟩ := hmem
    rw [List.mem_filter] at hx
    have h2 := hx.2
    simp [hxd] at h2
  · exact h.sublist ((List.filter_sublist _).map _)

theorem keysNodup_applyEvent (ch : Nat → String → List ChunkId) (st : SyncState)
    (e : SyncEvent) (h : keysNodup st.ledger) : keysNodup (applyEvent ch st e).ledger := by
  cases e <;> unfold applyEvent <;> (repeat' split) <;>
    first
    | exact h
    | exact keysNodup_setRecord _ _ h

theorem keysNodup_runEvents (ch : Nat → String → List ChunkId) (evs : List SyncEvent) :
    keysNodup (runEvents ch evs).ledger := by
  unfold runEvents
  have h : ∀ st : SyncState, keysNodup st.ledger →
      keysNodup (List.foldl (applyEvent ch) st evs).ledger := by
    induction evs with
    | nil => intro st h; exact h
    | cons e evs ih =>
      intro st h
      exact ih _ (keysNodup_applyEvent ch st e h)
  refine h initState ?_
  simp [initState, keysNodup]

theorem chunkIdsOf_append (a b : List ChunkId) (d : Nat) :
    chunkIdsOf (a ++ b) d = chunkIdsOf a d ++ chunkIdsOf b d := by
  unfold chunkIdsOf
  exact List.filter_append _ _

theorem chunkIdsOf_of_keys_eq {es : List ChunkId} {d : Nat}
    (h : ∀ e ∈ es, e.1 = d) : chunkIdsOf es d = es := by
  unfold chunkIdsOf
  rw [List.filter_eq_self]
  intro a ha
  simp [h a ha]

theorem chunkIdsOf_of_keys_ne {es : List ChunkId} {d : Nat}
    (h : ∀ e ∈ es, e.1 ≠ d) : chunkIdsOf es d = [] := by
  unfold chunkIdsOf
  rw [List.filter_eq_nil_iff]
  intro a ha
  simp [h a ha]

theorem chunkIdsOf_deleteByDocument_self (idx : List ChunkId) (d : Nat) :
    chunkIdsOf (deleteByDocument idx d) d = [] := by
  apply chunkIdsOf_of_keys_ne
  intro e he
  unfold deleteByDocument at he
  rw [List.mem_filter] at he
  simpa using he.2

theorem chunkIdsOf_deleteByDocument_other {idx : List ChunkId} {d d' : Nat}
    (h : d' ≠ d) : chunkIdsOf (deleteByDocument idx d) d' = chunkIdsOf idx d' := by
  unfold chunkIdsOf deleteByDocument
  rw [List.filter_filter]
  apply List.filter_congr
  intro a _
  by_cases h2 : a.1 = d'
  · simp [h2, h]
  · simp [h2]

theorem upsertAll_eq_append {idx es : List ChunkId} (hdisj : ∀ e ∈ es, e ∉ idx)
    (hnd : es.Nodup) : upsertAll idx es = idx ++ es := by
  induction es generalizing idx with
  | nil => simp [upsertAll]
  | cons e es ih =>
    rw [List.nodup_cons] at hnd
    unfold upsertAll
    rw [List.foldl_cons]
    have h1 : upsertChunk idx e = idx ++ [e] := by
      unfold upsertChunk
      rw [if_neg (hdisj e (List.mem_cons_self e es))]
    rw [h1]
    have h2 : upsertAll (idx ++ [e]) es = (idx ++ [e]) ++ es := by
      apply ih
      · intro e' he' hc
        rw [List.mem_append] at hc
        rcases hc with hc | hc
        · exact hdisj e' (List.mem_cons_of_mem _ he') hc
        · rw [List.mem_singleton] at hc
          exact hnd.1 (hc ▸ he')
      · exact hnd.2
    unfold upsertAll at h2
    rw [h2, List.append_assoc, List.singleton_append]

theorem chunkIdsOf_resync_self (ch : Nat → String → List ChunkId)
    (hkey : ∀ d c, ∀ e ∈ ch d c, e.1 = d) (hnd : ∀ d c, (ch d c).Nodup)
    (idx : List ChunkId) (d : Nat) (content : String) :
    chunkIdsOf (upsertAll (deleteByDocument idx d) (ch d content)) d = ch d content := by
  have hdisj : ∀ e ∈ ch d content, e ∉ deleteByDocument idx d := by
    intro e he hmem
    unfold deleteByDocument at hmem
    rw [List.mem_filter] at hmem
    have h1 := hkey d content e he
    simp [h1] at hmem
  rw [upsertAll_eq_append hdisj (hnd d content), chunkIdsOf_append,
    chunkIdsOf_deleteByDocument_self, chunkIdsOf_of_keys_eq (hkey d content),
    List.nil_append]

theorem chunkIdsOf_resync_other (ch : Nat → String → List ChunkId)
    (hkey : ∀ d c, ∀ e ∈ ch d c, e.1 = d) (hnd : ∀ d c, (ch d c).Nodup)
    (idx : List ChunkId) (d d' : Nat) (content : String) (h : d' ≠ d) :
    chunkIdsOf (upsertAll (deleteByDocument idx d) (ch d content)) d' =
      chunkIdsOf idx d' := by
  have hdisj : ∀ e ∈ ch d content, e ∉ deleteByDocument idx d := by
    intro e he hmem
    unfold deleteByDocument at hmem
    rw [List.mem_filter] at hmem
    have h1 := hkey d content e he
    simp [h1] at hmem
  rw [upsertAll_eq_append hdisj (hnd d content), chunkIdsOf_append,
    chunkIdsOf_deleteByDocument_other h,
    @chunkIdsOf_of_keys_ne (ch d content) d'
      (fun e he => by rw [hkey d content e he]; exact Ne.symm h),
    List.append_nil]

theorem syncedConsistent_set_nonsynced {ch : Nat → String → List ChunkId}
    {st : SyncState} {r' : SyncRecord} (hinv : syncedConsistent ch st)
    (hr's : r'.status ≠ .synced) : syncedConsistent ch (setRecord st r') := by
  intro x hx hxs
  rcases mem_setRecord_ledger hx with rfl | ⟨hxmem, _⟩
  · exact absurd hxs hr's
  · exact hinv x hxmem hxs

theorem syncedConsistent_set_nonsynced_deleteIdx {ch : Nat → String → List ChunkId}
    {st : SyncState} {r' : SyncRecord} {d : Nat} (hinv : syncedConsistent ch st)
    (hr's : r'.status ≠ .synced) (hr'd : r'.docId = d) :
    syncedConsistent ch
      ⟨(setRecord st r').ledger, deleteByDocument st.index d⟩ := by
  intro x hx hxs
  rcases mem_setRecord_ledger hx with rfl | ⟨hxmem, hxne⟩
  · exact absurd hxs hr's
  · obtain ⟨c, hc1, hc2⟩ := hinv x hxmem hxs
    refine ⟨c, hc1, ?_⟩
    show chunkIdsOf (deleteByDocument st.index d) x.docId = ch x.docId c
    rw [chunkIdsOf_deleteByDocument_other (hr'd ▸ hxne)]
    exact hc2

theorem syncedConsistent_finishSuccess {ch : Nat → String → List ChunkId}
    (hkey : ∀ d c, ∀ e ∈ ch d c, e.1 = d) (hnd : ∀ d c, (ch d c).Nodup)
    {st : SyncState} {r : SyncRecord} {d : Nat} (content : String)
    (hinv : syncedConsistent ch st) (hrd : r.docId = d) :
    syncedConsistent ch
      ⟨(setRecord st { r with
          status := .synced
          checksum := some content
          errorMsg := none }).ledger,
        upsertAll (deleteByDocument st.index d) (ch d content)⟩ := by
  intro x hx hxs
  rcases mem_setRecord_ledger hx with rfl | ⟨hxmem, hxne⟩
  · refine ⟨content, rfl, ?_⟩
    show chunkIdsOf (upsertAll (deleteByDocument st.index d) (ch d content)) r.docId =
      ch r.docId content
    rw [hrd]
    exact chunkIdsOf_resync_self ch hkey hnd st.index d content
  · obtain ⟨c, hc1, hc2⟩ := hinv x hxmem hxs
    refine ⟨c, hc1, ?_⟩
    show chunkIdsOf (upsertAll (deleteByDocument st.index d) (ch d content)) x.docId =
      ch x.docId c
    rw [chunkIdsOf_resync_other ch hkey hnd st.index d x.docId content (hrd ▸ hxne)]
    exact hc2

theorem syncedConsistent_applyEvent (ch : Nat → String → List ChunkId)
    (hkey : ∀ d c, ∀ e ∈ ch d c, e.1 = d) (hnd : ∀ d c, (ch d c).Nodup)
    (st : SyncState) (e : SyncEvent) (hinv : syncedConsistent ch st) :
    syncedConsistent ch (applyEvent ch st e) := by
  cases e with
  | notify d c =>
    simp only [applyEvent]
    split
    · apply syncedConsistent_set_nonsynced_deleteIdx hinv
      · cases hl : lookupRecord st d <;> simp [markDeleted]
      · cases hl : lookupRecord st d with
        | none => simp [markDeleted]
        | some r => simp [markDeleted, lookupRecord_docId hl]
    · cases hl : lookupRecord st d with
      | none =>
        dsimp only
        apply syncedConsistent_set_nonsynced hinv
        simp
      | some r =>
        dsimp only
        by_cases hp : r.status = SyncStatus.processing
        · simp only [if_pos hp]
          exact hinv
        · simp only [if_neg hp]
          apply syncedConsistent_set_nonsynced hinv
          simp
  | startSync d =>
    simp only [applyEvent]
    cases hl : lookupRecord st d with
    | none => exact hinv
    | some r =>
      dsimp only
      by_cases hp : r.status = SyncStatus.pending
      · simp only [if_pos hp]
        apply syncedConsistent_set_nonsynced hinv
        simp
      · simp only [if_neg hp]
        exact hinv
  | finishSync d o =>
    simp only [applyEvent]
    cases hl : lookupRecord st d with
    | none => exact hinv
    | some r =>
      dsimp only
      by_cases hp : r.status = SyncStatus.processing
      · simp only [if_pos hp]
        cases o with
        | success content =>
          exact syncedConsistent_finishSuccess hkey hnd content hinv (lookupRecord_docId hl)
        | failure msg =>
          apply syncedConsistent_set_nonsynced hinv
          simp
      · simp only [if_neg hp]
        exact hinv

theorem syncedConsistent_runEvents (ch : Nat → String → List ChunkId)
    (hkey : ∀ d c, ∀ e ∈ ch d c, e.1 = d) (hnd : ∀ d c, (ch d c).Nodup)
    (evs : List SyncEvent) : syncedConsistent ch (runEvents ch evs) := by
  unfold runEvents
  have h : ∀ st : SyncState, syncedConsistent ch st →
      syncedConsistent ch (List.foldl (applyEvent ch) st evs) := by
    induction evs with
    | nil => intro st h; exact h
    | cons e evs ih =>
      intro st h
      exact ih _ (syncedConsistent_applyEvent ch hkey hnd st e h)
  refine h initState ?_
  intro r hr
  exact absurd hr (List.not_mem_nil r)

/-- C4: for every document whose sync record is `synced`, the chunk set
currently present in the Vector Index for that document is exactly the
chunk ids the Chunker produces from the recorded content version (no
stale leftovers, no duplicates), and the checksum of the record certifies
that chunk set — at every reachable state of the Sync Engine, hence
after every successful sync, including one that shrinks the document. -/
theorem C4_synced_matches_chunker (ch : Nat → String → List ChunkId)
    (hkey : ∀ d c, ∀ e ∈ ch d c, e.1 = d) (hnd : ∀ d c, (ch d c).Nodup)
    (evs : List SyncEvent) (r : SyncRecord)
    (hr : r ∈ (runEvents ch evs).ledger) (hs : r.status = .synced) :
    ∃ c, r.checksum = some c ∧
      chunkIdsOf (runEvents ch evs).index r.docId = ch r.docId c ∧
      (chunkIdsOf (runEvents ch evs).index r.docId).Nodup := by
  obtain ⟨c, h1, h2⟩ := syncedConsistent_runEvents ch hkey hnd evs r hr hs
  exact ⟨c, h1, h2, h2 ▸ hnd r.docId c⟩

/-- C4 witness: document 1 is synced at five chunks ("abcde") and then
resynced at two chunks ("ab"); the final index holds exactly the two
chunk ids of the current content and the checksum records it. -/
theorem C4_synced_matches_chunker_witness :
    ∃ c, (⟨1, SyncStatus.synced, some "ab", none, 0⟩ : SyncRecord).checksum = some c ∧
      chunkIdsOf (runEvents (fun d s => (List.range s.length).map (fun i => (d, i)))
          [.notify 1 .created, .startSync 1, .finishSync 1 (.success "abcde"),
           .notify 1 .updated, .startSync 1, .finishSync 1 (.success "ab")]).index
          (⟨1, SyncStatus.synced, some "ab", none, 0⟩ : SyncRecord).docId =
        (fun d s => (List.range s.length).map (fun i => (d, i)))
          (⟨1, SyncStatus.synced, some "ab", none, 0⟩ : SyncRecord).docId c ∧
      (chunkIdsOf (runEvents (fun d s => (List.range s.length).map (fun i => (d, i)))
          [.notify 1 .created, .startSync 1, .finishSync 1 (.success "abcde"),
           .notify 1 .updated, .startSync 1, .finishSync 1 (.success "ab")]).index
          (⟨1, SyncStatus.synced, some "ab", none, 0⟩ : SyncRecord).docId).Nodup :=
  C4_synced_matches_chunker (fun d s => (List.range s.length).map (fun i => (d, i)))
    (fun d c e he => by
      simp only [List.mem_map, List.mem_range] at he
      obtain ⟨i, _, rfl⟩ := he
      rfl)
    (fun d c => by
      apply List.Nodup.map
      · intro a b hab
        simpa using hab
      · exact List.nodup_range _)
    [.notify 1 .created, .startSync 1, .finishSync 1 (.success "abcde"),
     .notify 1 .updated, .startSync 1, .finishSync 1 (.success "ab")]
    ⟨1, SyncStatus.synced, some "ab", none, 0⟩ (by decide) (by decide)

theorem applyEvent_notify_none (ch : Nat → String → List ChunkId) (st : SyncState)
    (d : Nat) (hl : lookupRecord st d = none) :
    applyEvent ch st (.notify d .updated) = setRecord st ⟨d, .pending, none, none, 0⟩ := by
  simp only [applyEvent]
  rw [if_neg (by simp), hl]

theorem applyEvent_notify_some (ch : Nat → String → List ChunkId) (st : SyncState)
    (d : Nat) (r : SyncRecord) (hl : lookupRecord st d = some r)
    (hp : r.status ≠ .processing) :
    applyEvent ch st (.notify d .updated) = setRecord st { r with status := .pending } := by
  simp only [applyEvent]
  rw [if_neg (by simp), hl]
  dsimp only
  rw [if_neg hp]

theorem applyEvent_start_some (ch : Nat → String → List ChunkId) (st : SyncState)
    (d : Nat) (r : SyncRecord) (hl : lookupRecord st d = some r)
    (hp : r.status = .pending) :
    applyEvent ch st (.startSync d) = setRecord st { r with status := .processing } := by
  simp only [applyEvent]
  rw [hl]
  dsimp only
  rw [if_pos hp]

theorem applyEvent_finish_success (ch : Nat → String → List ChunkId) (st : SyncState)
    (d : Nat) (r : SyncRecord) (content : String) (hl : lookupRecord st d = some r)
    (hp : r.status = .processing) :
    applyEvent ch st (.finishSync d (.success content)) =
      ⟨(setRecord st { r with
          status := .synced
          checksum := some content
          errorMsg := none }).ledger,
        upsertAll (deleteByDocument st.index d) (ch d content)⟩ := by
  simp only [applyEvent]
  rw [hl]
  dsimp only
  rw [if_pos hp]

theorem applyEvent_finish_failure (ch : Nat → String → List ChunkId) (st : SyncState)
    (d : Nat) (r : SyncRecord) (msg : String) (hl : lookupRecord st d = some r)
    (hp : r.status = .processing) :
    applyEvent ch st (.finishSync d (.failure msg)) =
      setRecord st { r with
        status := .failed
        errorMsg := some msg
        retryCount := r.retryCount + 1 } := by
  simp only [applyEvent]
  rw [hl]
  dsimp only
  rw [if_pos hp]

theorem lookupRecord_setLedger_self (st : SyncState) (r : SyncRecord)
    (idx : List ChunkId) :
    lookupRecord ⟨(setRecord st r).ledger, idx⟩ r.docId = some r :=
  lookupRecord_setRecord_self ⟨st.ledger, idx⟩ r

theorem deliverUpdate_success_state (ch : Nat → String → List ChunkId)
    (st : SyncState) (d : Nat) (content : String)
    (hp : ∀ r, lookupRecord st d = some r → r.status ≠ .processing) :
    lookupRecord (deliverUpdate ch st d (.success content)) d =
      some ⟨d, .synced, some content, none, retryOf st d⟩ ∧
    (deliverUpdate ch st d (.success content)).index =
      upsertAll (deleteByDocument st.index d) (ch d content) := by
  unfold deliverUpdate
  cases hl : lookupRecord st d with
  | none =>
    rw [applyEvent_notify_none ch st d hl]
    have l1 : lookupRecord (setRecord st ⟨d, .pending, none, none, 0⟩) d =
        some ⟨d, .pending, none, none, 0⟩ :=
      lookupRecord_setRecord_self st ⟨d, .pending, none, none, 0⟩
    rw [applyEvent_start_some ch _ d ⟨d, .pending, none, none, 0⟩ l1 rfl]
    have l2 : lookupRecord (setRecord (setRecord st ⟨d, .pending, none, none, 0⟩)
          ⟨d, .processing, none, none, 0⟩) d =
        some ⟨d, .processing, none, none, 0⟩ :=
      lookupRecord_setRecord_self _ ⟨d, .processing, none, none, 0⟩
    rw [applyEvent_finish_success ch _ d ⟨d, .processing, none, none, 0⟩ content l2 rfl]
    constructor
    · have l3 := lookupRecord_setLedger_self
        (setRecord (setRecord st ⟨d, .pending, none, none, 0⟩) ⟨d, .processing, none, none, 0⟩)
        ⟨d, .synced, some content, none, 0⟩
        (upsertAll (deleteByDocument st.index d) (ch d content))
      rw [show retryOf st d = 0 from by unfold retryOf; rw [hl]]
      exact l3
    · rfl
  | some r =>
    have hd := lookupRecord_docId hl
    have hnp := hp r hl
    rw [applyEvent_notify_some ch st d r hl hnp]
    have l1 : lookupRecord (setRecord st { r with status := .pending }) d =
        some { r with status := .pending } := by
      rw [← hd]
      exact lookupRecord_setRecord_self st { r with status := .pending }
    rw [applyEvent_start_some ch _ d { r with status := .pending } l1 rfl]
    have l2 : lookupRecord (setRecord (setRecord st { r with status := .pending })
          { r with status := .processing }) d =
        some { r with status := .processing } := by
      rw [← hd]
      exact lookupRecord_setRecord_self _ { r with status := .processing }
    rw [applyEvent_finish_success ch _ d { r with status := .processing } content l2 rfl]
    constructor
    · have l3 := lookupRecord_setLedger_self
        (setRecord (setRecord st { r with status := .pending })
          { r with status := .processing })
        { r with
          status := .synced
          checksum := some content
          errorMsg := none }
        (upsertAll (deleteByDocument st.index d) (ch d content))
      rw [show retryOf st d = r.retryCount from by unfold retryOf; rw [hl], ← hd]
      exact l3
    · rfl

/-- C5: delivering the same change notification twice leaves the system
as delivering it once: the chunk set of the affected document is identical,
holds no duplicates, and the sync record is the same (idempotence of
notification processing). -/
theorem C5_replay_idempotent (ch : Nat → String → List ChunkId)
    (hkey : ∀ d c, ∀ e ∈ ch d c, e.1 = d) (hnd : ∀ d c, (ch d c).Nodup)
    (st : SyncState) (d : Nat) (content : String)
    (hp : ∀ r, lookupRecord st d = some r → r.status ≠ .processing) :
    chunkIdsOf (deliverUpdate ch (deliverUpdate ch st d (.success content)) d
        (.success content)).index d =
      chunkIdsOf (deliverUpdate ch st d (.success content)).index d ∧
    (chunkIdsOf (deliverUpdate ch (deliverUpdate ch st d (.success content)) d
        (.success content)).index d).Nodup ∧
    lookupRecord (deliverUpdate ch (deliverUpdate ch st d (.success content)) d
        (.success content)) d =
      lookupRecord (deliverUpdate ch st d (.success content)) d := by
  obtain ⟨hrec1, hidx1⟩ := deliverUpdate_success_state ch st d content hp
  have hp2 : ∀ r, lookupRecord (deliverUpdate ch st d (.success content)) d = some r →
      r.status ≠ .processing := by
    intro r h
    rw [hrec1] at h
    injection h with h
    rw [← h]
    simp
  obtain ⟨hrec2, hidx2⟩ := deliverUpdate_success_state ch _ d content hp2
  refine ⟨?_, ?_, ?_⟩
  · rw [hidx1, hidx2, chunkIdsOf_resync_self ch hkey hnd _ d content,
      chunkIdsOf_resync_self ch hkey hnd _ d content]
  · rw [hidx2, chunkIdsOf_resync_self ch hkey hnd _ d content]
    exact hnd d content
  · rw [hrec1, hrec2]
    have h3 : retryOf (deliverUpdate ch st d (.success content)) d = retryOf st d := by
      unfold retryOf
      rw [hrec1]
      rfl
    rw [h3]

/-- C5 witness: replaying the successful sync of document 1 at content
"ab" from the empty state reproduces the same chunk set and record. -/
theorem C5_replay_idempotent_witness :
    chunkIdsOf (deliverUpdate (fun d s => (List.range s.length).map (fun i => (d, i)))
        (deliverUpdate (fun d s => (List.range s.length).map (fun i => (d, i)))
          initState 1 (.success "ab")) 1 (.success "ab")).index 1 =
      chunkIdsOf (deliverUpdate (fun d s => (List.range s.length).map (fun i => (d, i)))
        initState 1 (.success "ab")).index 1 ∧
    (chunkIdsOf (deliverUpdate (fun d s => (List.range s.length).map (fun i => (d, i)))
        (deliverUpdate (fun d s => (List.range s.length).map (fun i => (d, i)))
          initState 1 (.success "ab")) 1 (.success "ab")).index 1).Nodup ∧
    lookupRecord (deliverUpdate (fun d s => (List.range s.length).map (fun i => (d, i)))
        (deliverUpdate (fun d s => (List.range s.length).map (fun i => (d, i)))
          initState 1 (.success "ab")) 1 (.success "ab")) 1 =
      lookupRecord (deliverUpdate (fun d s => (List.range s.length).map (fun i => (d, i)))
        initState 1 (.success "ab")) 1 :=
  C5_replay_idempotent (fun d s => (List.range s.length).map (fun i => (d, i)))
    (fun d c e he => by
      simp only [List.mem_map, List.mem_range] at he
      obtain ⟨i, _, rfl⟩ := he
      rfl)
    (fun d c => by
      apply List.Nodup.map
      · intro a b hab
        simpa using hab
      · exact List.nodup_range _)
    initState 1 "ab"
    (fun r h => by simp [lookupRecord, initState] at h)

theorem countP_keyed_le_one {d : Nat} (l : List SyncRecord)
    (hnd : (l.map (fun r => r.docId)).Nodup) (p : SyncRecord → Bool)
    (hp : ∀ r, p r = true → r.docId = d) : l.countP p ≤ 1 := by
  induction l with
  | nil => simp
  | cons a l ih =>
    rw [List.map_cons, List.nodup_cons] at hnd
    rw [List.countP_cons]
    by_cases hpa : p a = true
    · have hz : l.countP p = 0 := by
        rw [List.countP_eq_zero]
        intro x hx hpx
        apply hnd.1
        rw [List.mem_map]
        exact ⟨x, hx, by rw [hp x hpx, ← hp a hpa]⟩
      simp [hpa, hz]
    · simp only [hpa, if_false, Nat.add_zero]
      exact ih hnd.2

/-- C6: at every reachable Sync Engine state there is at most one
`processing` record per source document identifier, and a create/update
notification for a document whose record is already `processing` is
coalesced into a no-op instead of starting a second concurrent run. -/
theorem C6_single_processing_and_coalesce (ch : Nat → String → List ChunkId) :
    (∀ evs d, ((runEvents ch evs).ledger.countP
        (fun r => decide (r.docId = d ∧ r.status = SyncStatus.processing))) ≤ 1) ∧
    (∀ st d r ct, lookupRecord st d = some r → r.status = .processing →
      ct = ChangeType.created ∨ ct = ChangeType.updated →
      applyEvent ch st (.notify d ct) = st) := by
  constructor
  · intro evs d
    apply countP_keyed_le_one (runEvents ch evs).ledger (keysNodup_runEvents ch evs)
    intro r hr
    simp at hr
    exact hr.1
  · intro st d r ct hl hp hct
    have hdel : ¬(ct = ChangeType.deleted ∨ ct = ChangeType.trashed) := by
      rcases hct with rfl | rfl <;> simp
    simp only [applyEvent]
    rw [if_neg hdel, hl]
    dsimp only
    rw [if_pos hp]

/-- C6 witness: after a notification and a sync start, document 1 is
`processing`; the processing count is at most one and a further update
notification is a no-op. -/
theorem C6_single_processing_and_coalesce_witness :
    ((runEvents (fun d s => (List.range s.length).map (fun i => (d, i)))
        [.notify 1 .created, .startSync 1]).ledger.countP
      (fun r => decide (r.docId = 1 ∧ r.status = SyncStatus.processing))) ≤ 1 ∧
    applyEvent (fun d s => (List.range s.length).map (fun i => (d, i)))
        (runEvents (fun d s => (List.range s.length).map (fun i => (d, i)))
          [.notify 1 .created, .startSync 1]) (.notify 1 .updated) =
      runEvents (fun d s => (List.range s.length).map (fun i => (d, i)))
        [.notify 1 .created, .startSync 1] :=
  ⟨(C6_single_processing_and_coalesce
      (fun d s => (List.range s.length).map (fun i => (d, i)))).1
      [.notify 1 .created, .startSync 1] 1,
   (C6_single_processing_and_coalesce
      (fun d s => (List.range s.length).map (fun i => (d, i)))).2
      (runEvents (fun d s => (List.range s.length).map (fun i => (d, i)))
        [.notify 1 .created, .startSync 1]) 1
      ⟨1, SyncStatus.processing, none, none, 0⟩ ChangeType.updated
      (by decide) (by decide) (Or.inr rfl)⟩

/-- C7: when a sync run on a `processing` record fails, the error
message is recorded, the retry count is incremented, and the Vector
Index — in particular the previously synced chunk set of the document — is
left completely unchanged. -/
theorem C7_failure_frame (ch : Nat → String → List ChunkId) (st : SyncState)
    (d : Nat) (r : SyncRecord) (msg : String) (hl : lookupRecord st d = some r)
    (hp : r.status = .processing) :
    (applyEvent ch st (.finishSync d (.failure msg))).index = st.index ∧
    chunkIdsOf (applyEvent ch st (.finishSync d (.failure msg))).index d =
      chunkIdsOf st.index d ∧
    lookupRecord (applyEvent ch st (.finishSync d (.failure msg))) d =
      some { r with
        status := .failed
        errorMsg := some msg
        retryCount := r.retryCount + 1 } := by
  rw [applyEvent_finish_failure ch st d r msg hl hp]
  refine ⟨rfl, rfl, ?_⟩
  rw [← lookupRecord_docId hl]
  exact lookupRecord_setRecord_self st { r with
    status := .failed
    errorMsg := some msg
    retryCount := r.retryCount + 1 }

/-- C7 witness: document 1 processing after a five-chunk sync; a failed
resync records the error, bumps the retry count, and leaves the index
untouched. -/
theorem C7_failure_frame_witness :
    (applyEvent (fun d s => (List.range s.length).map (fun i => (d, i)))
        (runEvents (fun d s => (List.range s.length).map (fun i => (d, i)))
          [.notify 1 .created, .startSync 1, .finishSync 1 (.success "ab"),
           .notify 1 .updated, .startSync 1]) (.finishSync 1 (.failure "boom"))).index =
      (runEvents (fun d s => (List.range s.length).map (fun i => (d, i)))
        [.notify 1 .created, .startSync 1, .finishSync 1 (.success "ab"),
         .notify 1 .updated, .startSync 1]).index ∧
    chunkIdsOf (applyEvent (fun d s => (List.range s.length).map (fun i => (d, i)))
        (runEvents (fun d s => (List.range s.length).map (fun i => (d, i)))
          [.notify 1 .created, .startSync 1, .finishSync 1 (.success "ab"),
           .notify 1 .updated, .startSync 1]) (.finishSync 1 (.failure "boom"))).index 1 =
      chunkIdsOf (runEvents (fun d s => (List.range s.length).map (fun i => (d, i)))
        [.notify 1 .created, .startSync 1, .finishSync 1 (.success "ab"),
         .notify 1 .updated, .startSync 1]).index 1 ∧
    lookupRecord (applyEvent (fun d s => (List.range s.length).map (fun i => (d, i)))
        (runEvents (fun d s => (List.range s.length).map (fun i => (d, i)))
          [.notify 1 .created, .startSync 1, .finishSync 1 (.success "ab"),
           .notify 1 .updated, .startSync 1]) (.finishSync 1 (.failure "boom"))) 1 =
      some { (⟨1, SyncStatus.processing, some "ab", none, 0⟩ : SyncRecord) with
        status := .failed
        errorMsg := some "boom"
        retryCount := (⟨1, SyncStatus.processing, some "ab", none, 0⟩ : SyncRecord).retryCount + 1 } :=
  C7_failure_frame (fun d s => (List.range s.length).map (fun i => (d, i)))
    (runEvents (fun d s => (List.range s.length).map (fun i => (d, i)))
      [.notify 1 .created, .startSync 1, .finishSync 1 (.success "ab"),
       .notify 1 .updated, .startSync 1]) 1
    ⟨1, SyncStatus.processing, some "ab", none, 0⟩ "boom" (by decide) (by decide)

end Orris
